import Mathlib

/-!
Verification of the audio-to-tab synchronization engine of the
guitarprotool repository: a shallow embedding in Lean 4 of
`core/drift_analyzer.py` (class `DriftAnalyzer`) and
`core/beat_detector.py` (class `BeatDetector`), with theorems settling
the specification claims about nearest-beat matching, sync-point
generation, frame offsets, local tempo, tempo-octave correction and
error handling.

Python `float` arithmetic is modelled by exact rational arithmetic `ℚ`.
Because the library's `Rat.add/mul/inv/sub` are `@[irreducible]` (so the
kernel cannot evaluate them for concrete witnesses), the embedding uses
executable wrappers `qadd`, `qsub`, `qmul`, `qdiv`, `qabs` built on
`mkRat`/`Rat.divInt`; the bridge theorems `qadd_eq`, `qsub_eq`,
`qmul_eq`, `qdiv_eq`, `qabs_eq` below prove they are exactly the field
operations of `ℚ`.  Python `int(x)` (truncation toward zero) is `pyInt`,
Python `round(x)` (banker's rounding, half to even) is `pyRound`, and
Python `statistics.median` is `pyMedian`.
-/

/-- Rational literal `n / d`, in the kernel-reducible normal form. -/
def q (n : ℤ) (d : ℕ) : ℚ := mkRat n d

/-- Rational value of a natural number, kernel-reducible. -/
def qn (n : ℕ) : ℚ := mkRat n 1

/-- Executable addition on `ℚ` (equals `+`, see `qadd_eq`). -/
def qadd (a b : ℚ) : ℚ := mkRat (a.num * (b.den : ℤ) + b.num * (a.den : ℤ)) (a.den * b.den)

/-- Executable subtraction on `ℚ` (equals `-`, see `qsub_eq`). -/
def qsub (a b : ℚ) : ℚ := qadd a (-b)

/-- Executable multiplication on `ℚ` (equals `*`, see `qmul_eq`). -/
def qmul (a b : ℚ) : ℚ := mkRat (a.num * b.num) (a.den * b.den)

/-- Executable division on `ℚ` (equals `/`, with `qdiv a 0 = 0`, see `qdiv_eq`). -/
def qdiv (a b : ℚ) : ℚ := Rat.divInt (a.num * (b.den : ℤ)) ((a.den : ℤ) * b.num)

/-- Executable absolute value on `ℚ` (equals `|·|`, see `qabs_eq`). -/
def qabs (a : ℚ) : ℚ := if a < 0 then -a else a

/-- Python `int(x)`: truncation toward zero. -/
def pyInt (x : ℚ) : ℤ :=
  if 0 ≤ x.num then ((x.num.toNat / x.den : ℕ) : ℤ)
  else -((x.num.natAbs / x.den : ℕ) : ℤ)

/-- Floor of a rational, kernel-reducible. -/
def ratFloorZ (x : ℚ) : ℤ :=
  if 0 ≤ x.num then ((x.num.toNat / x.den : ℕ) : ℤ)
  else -(((x.num.natAbs + x.den - 1) / x.den : ℕ) : ℤ)

/-- Python `round(x)`: round half to even (banker's rounding). -/
def pyRound (x : ℚ) : ℤ :=
  let f := ratFloorZ x
  let r := qsub x (q f 1)
  if r < q 1 2 then f
  else if q 1 2 < r then f + 1
  else if f % 2 = 0 then f else f + 1

/-- Insertion into a sorted list (for `sortQ`). -/
def insertQ (x : ℚ) : List ℚ → List ℚ
  | [] => [x]
  | y :: ys => if x ≤ y then x :: y :: ys else y :: insertQ x ys

/-- Insertion sort of rationals; yields the unique `≤`-sorted rearrangement,
as Python's `sorted` does. -/
def sortQ : List ℚ → List ℚ
  | [] => []
  | x :: xs => insertQ x (sortQ xs)

/-- Python `statistics.median` on a nonempty list: the middle element of the
sorted list for odd length, the mean of the two middle elements for even
length.  (Python raises on an empty list; every call site in the embedded
code guards nonemptiness, and here the empty list maps to `0`.) -/
def pyMedian (l : List ℚ) : ℚ :=
  let s := sortQ l
  let n := s.length
  if n % 2 = 1 then s.getD (n / 2) 0
  else qdiv (qadd (s.getD (n / 2 - 1) 0) (s.getD (n / 2) 0)) (q 2 1)

/-- Consecutive differences of a list, as `numpy.diff`. -/
def diffs : List ℚ → List ℚ
  | x :: y :: rest => qsub y x :: diffs (y :: rest)
  | _ => []

/-- Structure `BeatInfo` from `core/beat_detector.py`: beat-detection results. -/
structure BeatInfo where
  bpm : ℚ
  beat_times : List ℚ
  confidence : ℚ
deriving DecidableEq

/-- Structure `SyncPointData` from `core/beat_detector.py`: one sync point ready for
XML injection. -/
structure SyncPointData where
  bar : ℕ
  frame_offset : ℤ
  modified_tempo : ℚ
  original_tempo : ℚ
deriving DecidableEq

/-- Structure `SyncResult` from `core/beat_detector.py`: sync points plus the
playback-wide frame padding. -/
structure SyncResult where
  sync_points : List SyncPointData
  frame_padding : ℤ
  first_beat_time : ℚ
deriving DecidableEq

/-- Structure `BarDriftInfo` from `core/drift_analyzer.py`: drift data of one bar. -/
structure BarDriftInfo where
  bar : ℕ
  expected_time : ℚ
  actual_time : ℚ
  local_tempo : ℚ
  original_tempo : ℚ
deriving DecidableEq

/-- Property `BarDriftInfo.drift_percent`: percentage drift from the expected tempo,
defensively `0` for a non-positive tab tempo. -/
def BarDriftInfo.drift_percent (d : BarDriftInfo) : ℚ :=
  if d.original_tempo ≤ 0 then 0
  else qmul (qdiv (qsub d.local_tempo d.original_tempo) d.original_tempo) (qn 100)

/-- The state of a constructed `DriftAnalyzer` (its `__init__` fields;
the derived quantities are the defs below). -/
structure DriftAnalyzer where
  beat_times : List ℚ
  original_tempo : ℚ
  beats_per_bar : ℕ
  sample_rate : ℕ
  tab_start_bar : ℕ
deriving DecidableEq

/-- Derived field `self.expected_beat_interval = 60.0 / original_tempo`. -/
def DriftAnalyzer.expected_beat_interval (a : DriftAnalyzer) : ℚ :=
  qdiv (qn 60) a.original_tempo

/-- Derived field `self.expected_bar_duration = expected_beat_interval * beats_per_bar`. -/
def DriftAnalyzer.expected_bar_duration (a : DriftAnalyzer) : ℚ :=
  qmul a.expected_beat_interval (qn a.beats_per_bar)

/-- Derived field `self.first_beat_time = beat_times[0]` (the analyzer is only constructed
with at least 4 beats, so the default for the empty list is never used). -/
def DriftAnalyzer.first_beat_time (a : DriftAnalyzer) : ℚ :=
  (a.beat_times.head?).getD 0

/-- Errors a Python `DriftAnalyzer.__init__` call can raise. -/
inductive InitError where
  | insufficientBeats
  | zeroDivision
deriving DecidableEq

/-- Constructor `DriftAnalyzer.__init__`: raises `InsufficientBeatsError` for fewer than
4 beats; the subsequent `60.0 / original_tempo` raises `ZeroDivisionError`
for a zero tab tempo. -/
def mkDriftAnalyzer (beat_times : List ℚ) (original_tempo : ℚ)
    (beats_per_bar sample_rate tab_start_bar : ℕ) : Except InitError DriftAnalyzer :=
  if beat_times.length < 4 then .error .insufficientBeats
  else if original_tempo = 0 then .error .zeroDivision
  else .ok ⟨beat_times, original_tempo, beats_per_bar, sample_rate, tab_start_bar⟩

/-- Expected absolute time of a bar offset:
`first_beat_time + bars_from_start * expected_bar_duration`
(from `_find_nearest_beat_to_expected`). -/
def DriftAnalyzer.nearExpected (a : DriftAnalyzer) (bars_from_start : ℕ) : ℚ :=
  qadd a.first_beat_time (qmul (qn bars_from_start) a.expected_bar_duration)

/-- Distance of beat `i` from the expected time of a bar offset:
`abs(beat_times[i] - expected_absolute_time)`. -/
def DriftAnalyzer.nearDiff (a : DriftAnalyzer) (bars_from_start i : ℕ) : ℚ :=
  qabs (qsub (a.beat_times.getD i 0) (a.nearExpected bars_from_start))

/-- Window start `search_start = max(0, estimated_idx - beats_per_bar * 2)` (the `max`
is the truncated subtraction of `ℕ`). -/
def DriftAnalyzer.nearSearchStart (a : DriftAnalyzer) (bars_from_start : ℕ) : ℕ :=
  bars_from_start * a.beats_per_bar - a.beats_per_bar * 2

/-- Window end `search_end = min(len(beat_times), estimated_idx + beats_per_bar * 2)`. -/
def DriftAnalyzer.nearSearchEnd (a : DriftAnalyzer) (bars_from_start : ℕ) : ℕ :=
  min a.beat_times.length (bars_from_start * a.beats_per_bar + a.beats_per_bar * 2)

/-- The `for i in range(search_start, search_end)` loop of
`_find_nearest_beat_to_expected`: scan the remaining indices, replacing the
accumulator `(min_diff, nearest_idx)` only on strict improvement (so ties
keep the earliest index). -/
def bestScan (d : ℕ → ℚ) : List ℕ → ℚ × ℕ → ℚ × ℕ
  | [], acc => acc
  | i :: rest, acc => bestScan d rest (if d i < acc.1 then (d i, i) else acc)

/-- Method `DriftAnalyzer._find_nearest_beat_to_expected`: `None` when the expected
time exceeds the last detected beat by more than one bar duration, else the
index scanned from the clipped window (Python initializes `nearest_idx = 0`,
so an empty window yields index `0`). -/
def DriftAnalyzer.find_nearest_beat_to_expected (a : DriftAnalyzer)
    (bars_from_start : ℕ) : Option ℕ :=
  if a.beat_times = [] then none
  else if qadd ((a.beat_times.getLast?).getD 0) a.expected_bar_duration <
      a.nearExpected bars_from_start then none
  else
    match List.range' (a.nearSearchStart bars_from_start)
        (a.nearSearchEnd bars_from_start - a.nearSearchStart bars_from_start) with
    | [] => some 0
    | i :: rest =>
      some (bestScan (a.nearDiff bars_from_start) rest (a.nearDiff bars_from_start i, i)).2

/-- The slice `beat_times[start_idx:end_idx]` of
`calculate_local_tempo_at_bar`: a window of `window_beats` beats around the
beat index estimated for the bar. -/
def DriftAnalyzer.localTempoWindow (a : DriftAnalyzer) (bar window_beats : ℕ) : List ℚ :=
  let beat_index := (bar - a.tab_start_bar) * a.beats_per_bar
  let start_idx := beat_index - window_beats / 2
  let end_idx := min a.beat_times.length (beat_index + window_beats / 2 + 1)
  (a.beat_times.drop start_idx).take (end_idx - start_idx)

/-- Method `DriftAnalyzer.calculate_local_tempo_at_bar`: `60 / median` of the
beat-to-beat intervals in a sliding window around the bar's estimated beat
index, falling back to the tab tempo for bars before `tab_start_bar`, beat
indices past the detected beats, windows of fewer than 2 beats, and
non-positive medians. -/
def DriftAnalyzer.calculate_local_tempo_at_bar (a : DriftAnalyzer)
    (bar window_beats : ℕ) : ℚ :=
  if bar < a.tab_start_bar then a.original_tempo
  else
    let beat_index := (bar - a.tab_start_bar) * a.beats_per_bar
    if a.beat_times.length ≤ beat_index then a.original_tempo
    else
      let window := a.localTempoWindow bar window_beats
      if window.length < 2 then a.original_tempo
      else
        let intervals := diffs window
        if intervals = [] then a.original_tempo
        else
          let median_interval := pyMedian intervals
          if median_interval ≤ 0 then a.original_tempo
          else qdiv (qn 60) median_interval

/-- Method `DriftAnalyzer.get_drift_at_bar`: `None` before `tab_start_bar` or when
no beat matches; otherwise the bar's drift data. -/
def DriftAnalyzer.get_drift_at_bar (a : DriftAnalyzer) (bar : ℕ) : Option BarDriftInfo :=
  if bar < a.tab_start_bar then none
  else
    let bars_from_start := bar - a.tab_start_bar
    let expected_time := qmul (qn bars_from_start) a.expected_bar_duration
    match a.find_nearest_beat_to_expected bars_from_start with
    | none => none
    | some idx =>
      let actual_time := qsub (a.beat_times.getD idx 0) a.first_beat_time
      some ⟨bar, expected_time, actual_time,
        a.calculate_local_tempo_at_bar bar 8, a.original_tempo⟩

/-- The drift test of `_find_sync_point_positions`:
`drift_info and abs(drift_info.drift_percent) >= DRIFT_THRESHOLD_PERCENT`
(the threshold is `0.5`). -/
def DriftAnalyzer.driftTrigger (a : DriftAnalyzer) (bar : ℕ) : Bool :=
  match a.get_drift_at_bar bar with
  | some d => if q 1 2 ≤ qabs d.drift_percent then true else false
  | none => false

/-- One iteration of the `for bar in range(...)` loop of
`_find_sync_point_positions`, on the state `(positions, last_sync_bar)`.
`MAX_SYNC_INTERVAL = 8` and `MIN_SYNC_INTERVAL = 1`. -/
def DriftAnalyzer.syncStep (a : DriftAnalyzer) (base_interval : ℕ)
    (st : List ℕ × ℕ) (bar : ℕ) : List ℕ × ℕ :=
  let bars_since_last := bar - st.2
  if 8 ≤ bars_since_last then (st.1 ++ [bar], bar)
  else if 1 ≤ bars_since_last ∧ a.driftTrigger bar then (st.1 ++ [bar], bar)
  else if base_interval ≤ bars_since_last then (st.1 ++ [bar], bar)
  else st

/-- Method `DriftAnalyzer._find_sync_point_positions`: greedy left-to-right scan
from `tab_start_bar` (always included) over bars up to `max_bars`. -/
def DriftAnalyzer.find_sync_point_positions (a : DriftAnalyzer)
    (max_bars base_interval : ℕ) : List ℕ :=
  ((List.range' (a.tab_start_bar + 1) (max_bars - (a.tab_start_bar + 1))).foldl
    (a.syncStep base_interval) ([a.tab_start_bar], a.tab_start_bar)).1

/-- Method `DriftAnalyzer._calculate_frame_offset_for_bar`: absolute sample
positions when `tab_start_bar > 0`, positions relative to the first beat
otherwise, extrapolating by `expected_bar_duration` when no beat matches. -/
def DriftAnalyzer.calculate_frame_offset_for_bar (a : DriftAnalyzer) (bar : ℕ) : ℤ :=
  if 0 < a.tab_start_bar then
    if bar < a.tab_start_bar then
      let bars_before_music := a.tab_start_bar - bar
      let absolute_time :=
        qsub a.first_beat_time (qmul (qn bars_before_music) a.expected_bar_duration)
      pyInt (qmul (max 0 absolute_time) (qn a.sample_rate))
    else
      let adjusted_bar := bar - a.tab_start_bar
      match a.find_nearest_beat_to_expected adjusted_bar with
      | some idx => pyInt (qmul (a.beat_times.getD idx 0) (qn a.sample_rate))
      | none =>
        pyInt (qmul (qadd a.first_beat_time
          (qmul (qn adjusted_bar) a.expected_bar_duration)) (qn a.sample_rate))
  else
    match a.find_nearest_beat_to_expected bar with
    | some idx =>
      pyInt (qmul (qsub (a.beat_times.getD idx 0) a.first_beat_time) (qn a.sample_rate))
    | none => pyInt (qmul (qmul (qn bar) a.expected_bar_duration) (qn a.sample_rate))

/-- The `for bar in positions` loop of `generate_adaptive_sync_points`:
one `SyncPointData` per planned bar. -/
def DriftAnalyzer.plannedSyncPoints (a : DriftAnalyzer)
    (max_bars base_interval : ℕ) : List SyncPointData :=
  (a.find_sync_point_positions max_bars base_interval).map fun bar =>
    ⟨bar, a.calculate_frame_offset_for_bar bar,
      a.calculate_local_tempo_at_bar bar 8, a.original_tempo⟩

/-- Method `DriftAnalyzer.generate_adaptive_sync_points`: when `tab_start_bar > 0`
an intro sync point at bar 0 with the stretched tempo
`original_tempo * (expected_intro_duration / first_beat_time)` is placed
before the planned bars.  That division is unguarded in the source: a first
beat at time `0.0` raises `ZeroDivisionError`, modelled by `none`. -/
def DriftAnalyzer.generate_adaptive_sync_points (a : DriftAnalyzer)
    (max_bars base_interval : ℕ) : Option (List SyncPointData) :=
  if 0 < a.tab_start_bar then
    if a.first_beat_time = 0 then none
    else
      let expected_intro_duration := qmul (qn a.tab_start_bar) a.expected_bar_duration
      let intro_tempo := qmul a.original_tempo (qdiv expected_intro_duration a.first_beat_time)
      some (⟨0, 0, intro_tempo, a.original_tempo⟩ ::
        a.plannedSyncPoints max_bars base_interval)
  else some (a.plannedSyncPoints max_bars base_interval)

/-- Errors `BeatDetector.generate_sync_points` can raise:
`BeatDetectionError` for fewer than 2 beats, `ZeroDivisionError` for a zero
divisor (`beats_per_bar` or `original_tempo`), `ValueError` for
`range(0, max_bars, 0)` in the static path. -/
inductive GenError where
  | beatDetection
  | zeroDivision
  | valueError
deriving DecidableEq

/-- Python `range(0, max_bars, bar_interval)` for a positive step: the bars
`0, bar_interval, 2 * bar_interval, ...` below `max_bars`. -/
def rangeStep (max_bars step : ℕ) : List ℕ :=
  (List.range ((max_bars + step - 1) / step)).map (· * step)

/-- The loop of `BeatDetector._generate_static_sync_points`: sync points at
fixed bar intervals, every one with `modified_tempo = original_tempo`. -/
def staticSyncPoints (sample_rate : ℕ) (original_tempo : ℚ)
    (beats_per_bar bar_interval max_bars : ℕ) : List SyncPointData :=
  let seconds_per_bar := qmul (qdiv (qn 60) original_tempo) (qn beats_per_bar)
  (rangeStep max_bars bar_interval).map fun bar =>
    ⟨bar, pyInt (qmul (qmul (qn bar) seconds_per_bar) (qn sample_rate)),
      original_tempo, original_tempo⟩

/-- Method `BeatDetector._generate_static_sync_points` with its failure modes:
`60.0 / original_tempo` raises for a zero tempo, `range` with step 0 raises
`ValueError`. -/
def staticSyncPointsE (sample_rate : ℕ) (original_tempo : ℚ)
    (beats_per_bar bar_interval max_bars : ℕ) : Except GenError (List SyncPointData) :=
  if original_tempo = 0 then .error .zeroDivision
  else if bar_interval = 0 then .error .valueError
  else .ok (staticSyncPoints sample_rate original_tempo beats_per_bar bar_interval max_bars)

/-- The `max_bars` resolution of `BeatDetector.generate_sync_points`: the
given bound, or `int(audio_duration / seconds_per_bar) + 1` estimated from
the detected beats when `None` is passed. -/
def resolveMaxBars (bi : BeatInfo) (original_tempo : ℚ) (beats_per_bar : ℕ)
    (max_bars : Option ℤ) : Except GenError ℤ :=
  match max_bars with
  | some m => .ok m
  | none =>
    if original_tempo = 0 then .error .zeroDivision
    else
      let audio_duration :=
        qsub ((bi.beat_times.getLast?).getD 0) ((bi.beat_times.head?).getD 0)
      let seconds_per_bar := qmul (qdiv (qn 60) original_tempo) (qn beats_per_bar)
      .ok (pyInt (qdiv audio_duration seconds_per_bar) + 1)

/-- Method `BeatDetector._generate_adaptive_sync_points`: construct a
`DriftAnalyzer` (with `tab_start_bar = 0`) and delegate; an
`InsufficientBeatsError` from the constructor falls back to the static
planner, any other error propagates. -/
def generate_adaptive_sync_points_detector (sample_rate : ℕ) (bi : BeatInfo)
    (original_tempo : ℚ) (beats_per_bar bar_interval : ℕ) (max_bars : ℤ) :
    Except GenError (List SyncPointData) :=
  match mkDriftAnalyzer bi.beat_times original_tempo beats_per_bar sample_rate 0 with
  | .error .insufficientBeats =>
    staticSyncPointsE sample_rate original_tempo beats_per_bar bar_interval max_bars.toNat
  | .error .zeroDivision => .error .zeroDivision
  | .ok analyzer =>
    match analyzer.generate_adaptive_sync_points max_bars.toNat bar_interval with
    | some pts => .ok pts
    | none => .error .zeroDivision

/-- Method `BeatDetector.generate_sync_points`: validate the beat list, compute
`first_beat_time` and `frame_padding = -int(first_beat_time * sample_rate)`,
derive `bar_interval = sync_interval // beats_per_bar`, resolve `max_bars`,
then produce adaptive or static sync points. -/
def generate_sync_points (sample_rate : ℕ) (bi : BeatInfo) (original_tempo : ℚ)
    (beats_per_bar sync_interval : ℕ) (start_offset : ℚ) (max_bars : Option ℤ)
    (adaptive : Bool) : Except GenError SyncResult :=
  if bi.beat_times = [] then .error .beatDetection
  else if bi.beat_times.length < 2 then .error .beatDetection
  else
    let first_beat_time := qadd ((bi.beat_times.head?).getD 0) start_offset
    let frame_padding := -pyInt (qmul first_beat_time (qn sample_rate))
    if beats_per_bar = 0 then .error .zeroDivision
    else
      let bar_interval := sync_interval / beats_per_bar
      match resolveMaxBars bi original_tempo beats_per_bar max_bars with
      | .error e => .error e
      | .ok maxB =>
        let pointsE :=
          if adaptive then
            generate_adaptive_sync_points_detector sample_rate bi original_tempo
              beats_per_bar bar_interval maxB
          else
            staticSyncPointsE sample_rate original_tempo beats_per_bar bar_interval maxB.toNat
        match pointsE with
        | .error e => .error e
        | .ok pts => .ok ⟨pts, frame_padding, first_beat_time⟩

/-- Keep every other element, starting with the first
(`beat_times[::2]`). -/
def everyOther : List ℚ → List ℚ
  | [] => []
  | [x] => [x]
  | x :: _ :: rest => x :: everyOther rest

/-- Insert the linear midpoint between every consecutive pair of beats. -/
def interpolateMidpoints : List ℚ → List ℚ
  | x :: y :: rest => x :: qdiv (qadd x y) (q 2 1) :: interpolateMidpoints (y :: rest)
  | l => l

/-- Modelled from the spec: `BeatDetector.correct_tempo_multiple` is called
from the CLI but its definition is not under `src/`; per spec section 4.1 it
normalizes an octave-detected tempo against the reference tempo, with an
empirical tolerance of about ten percent around the ratios `2.0` and `0.5`
(so the bands are `[1.8, 2.2]` and `[0.45, 0.55]`): double-time keeps every
other beat and halves the tempo, half-time interpolates midpoints and
doubles the tempo, and any other ratio returns the input unchanged. -/
def correct_tempo_multiple (bi : BeatInfo) (reference_tempo : ℚ) : BeatInfo :=
  let tempoRatioVal := qdiv bi.bpm reference_tempo
  if q 9 5 ≤ tempoRatioVal ∧ tempoRatioVal ≤ q 11 5 then
    ⟨qdiv bi.bpm (q 2 1), everyOther bi.beat_times, bi.confidence⟩
  else if q 9 20 ≤ tempoRatioVal ∧ tempoRatioVal ≤ q 11 20 then
    ⟨qmul bi.bpm (q 2 1), interpolateMidpoints bi.beat_times, bi.confidence⟩
  else bi

/-- The numerator of a rational is the rational times its denominator. -/
theorem num_eq_mul_den (a : ℚ) : ((a.num : ℚ)) = a * (a.den : ℚ) := by
  have ha : ((a.den : ℚ)) ≠ 0 := Nat.cast_ne_zero.mpr a.den_nz
  have h := Rat.num_div_den a
  rw [div_eq_iff ha] at h
  exact h

/-- Bridge: `qadd` is addition on `ℚ`. -/
theorem qadd_eq (a b : ℚ) : qadd a b = a + b := by
  have ha : ((a.den : ℚ)) ≠ 0 := Nat.cast_ne_zero.mpr a.den_nz
  have hb : ((b.den : ℚ)) ≠ 0 := Nat.cast_ne_zero.mpr b.den_nz
  rw [qadd, Rat.mkRat_eq_div]
  push_cast
  rw [div_eq_iff (mul_ne_zero ha hb), num_eq_mul_den a, num_eq_mul_den b]
  ring

/-- Bridge: `qsub` is subtraction on `ℚ`. -/
theorem qsub_eq (a b : ℚ) : qsub a b = a - b := by
  rw [qsub, qadd_eq, sub_eq_add_neg]

/-- Bridge: `qmul` is multiplication on `ℚ`. -/
theorem qmul_eq (a b : ℚ) : qmul a b = a * b := by
  have ha : ((a.den : ℚ)) ≠ 0 := Nat.cast_ne_zero.mpr a.den_nz
  have hb : ((b.den : ℚ)) ≠ 0 := Nat.cast_ne_zero.mpr b.den_nz
  rw [qmul, Rat.mkRat_eq_div]
  push_cast
  rw [div_eq_iff (mul_ne_zero ha hb), num_eq_mul_den a, num_eq_mul_den b]
  ring

/-- Bridge: `qdiv` is division on `ℚ` (both send a zero divisor to `0`). -/
theorem qdiv_eq (a b : ℚ) : qdiv a b = a / b := by
  have ha : ((a.den : ℚ)) ≠ 0 := Nat.cast_ne_zero.mpr a.den_nz
  have hb : ((b.den : ℚ)) ≠ 0 := Nat.cast_ne_zero.mpr b.den_nz
  rw [qdiv, Rat.divInt_eq_div]
  rcases eq_or_ne b.num 0 with h0 | h0
  · have hbz : b = 0 := Rat.zero_iff_num_zero.mpr h0
    rw [h0, hbz]
    push_cast
    simp
  · have hbq : ((b.num : ℚ)) ≠ 0 := Int.cast_ne_zero.mpr h0
    have hbne : b ≠ 0 := fun hh => h0 (by rw [hh]; rfl)
    push_cast
    rw [div_eq_div_iff (mul_ne_zero ha hbq) hbne, num_eq_mul_den a, num_eq_mul_den b]
    ring

/-- Bridge: `qabs` is the absolute value on `ℚ`. -/
theorem qabs_eq (a : ℚ) : qabs a = |a| := by
  rw [qabs]
  by_cases h : a < 0
  · rw [if_pos h, abs_of_neg h]
  · rw [if_neg h, abs_of_nonneg (le_of_not_lt h)]

/-- Bridge: `qn` is the canonical embedding of `ℕ` into `ℚ`. -/
theorem qn_eq (n : ℕ) : qn n = (n : ℚ) := by
  rw [qn, Rat.mkRat_one]
  norm_cast

/-- Bridge: `q` is the rational `n / d`. -/
theorem q_eq (n : ℤ) (d : ℕ) : q n d = (n : ℚ) / (d : ℚ) := by
  rw [q, Rat.mkRat_eq_div]

/-- Members of `insertQ x l` are `x` or members of `l`. -/
theorem mem_of_mem_insertQ {x y : ℚ} : ∀ {l : List ℚ}, y ∈ insertQ x l → y = x ∨ y ∈ l := by
  intro l
  induction l with
  | nil => simp [insertQ]
  | cons z zs ih =>
    rw [insertQ]
    by_cases h : x ≤ z
    · rw [if_pos h]
      intro hy
      rcases List.mem_cons.mp hy with hy | hy
      · exact Or.inl hy
      · exact Or.inr hy
    · rw [if_neg h]
      intro hy
      rcases List.mem_cons.mp hy with hy | hy
      · exact Or.inr (by simp [hy])
      · rcases ih hy with hy | hy
        · exact Or.inl hy
        · exact Or.inr (List.mem_cons_of_mem _ hy)

/-- Members of the sorted list are members of the original list. -/
theorem mem_of_mem_sortQ {y : ℚ} : ∀ {l : List ℚ}, y ∈ sortQ l → y ∈ l := by
  intro l
  induction l with
  | nil => simp [sortQ]
  | cons x xs ih =>
    rw [sortQ]
    intro hy
    rcases mem_of_mem_insertQ hy with hy | hy
    · simp [hy]
    · exact List.mem_cons_of_mem _ (ih hy)

/-- Inserting adds one element to the length. -/
theorem length_insertQ (x : ℚ) : ∀ (l : List ℚ), (insertQ x l).length = l.length + 1 := by
  intro l
  induction l with
  | nil => rfl
  | cons z zs ih =>
    rw [insertQ]
    by_cases h : x ≤ z
    · rw [if_pos h]
      rfl
    · rw [if_neg h]
      simp [ih]

/-- Sorting preserves the length. -/
theorem length_sortQ : ∀ (l : List ℚ), (sortQ l).length = l.length := by
  intro l
  induction l with
  | nil => rfl
  | cons x xs ih => rw [sortQ, length_insertQ, ih, List.length_cons]

/-- An in-range `getD` of a list is a member of the list. -/
theorem getD_mem {l : List ℚ} {i : ℕ} (h : i < l.length) : l.getD i 0 ∈ l := by
  rw [List.getD_eq_getElem l 0 h]
  exact List.getElem_mem h

/-- The median of a nonempty list of positive rationals is positive. -/
theorem pyMedian_pos {l : List ℚ} (hne : l ≠ []) (hpos : ∀ x ∈ l, 0 < x) :
    0 < pyMedian l := by
  have hlen : 0 < (sortQ l).length := by
    rw [length_sortQ]
    exact List.length_pos.mpr hne
  have hmem : ∀ i, i < (sortQ l).length → 0 < (sortQ l).getD i 0 := by
    intro i hi
    exact hpos _ (mem_of_mem_sortQ (getD_mem hi))
  rw [pyMedian]
  by_cases hpar : (sortQ l).length % 2 = 1
  · rw [if_pos hpar]
    exact hmem _ (Nat.div_lt_of_lt_mul (by omega))
  · rw [if_neg hpar]
    rw [qdiv_eq, qadd_eq, q_eq]
    have h1 : 0 < (sortQ l).getD ((sortQ l).length / 2 - 1) 0 := hmem _ (by omega)
    have h2 : 0 < (sortQ l).getD ((sortQ l).length / 2) 0 := hmem _ (by omega)
    have : ((2 : ℤ) : ℚ) / ((1 : ℕ) : ℚ) = 2 := by norm_num
    rw [this]
    positivity

/-- Consecutive differences of a strictly increasing list are positive. -/
theorem diffs_pos : ∀ (l : List ℚ), List.Chain' (· < ·) l → ∀ x ∈ diffs l, 0 < x := by
  intro l
  induction l with
  | nil => simp [diffs]
  | cons x xs ih =>
    cases xs with
    | nil => simp [diffs]
    | cons y rest =>
      intro h z hz
      rw [show diffs (x :: y :: rest) = qsub y x :: diffs (y :: rest) from rfl] at hz
      rcases List.mem_cons.mp hz with hz | hz
      · rw [hz, qsub_eq]
        have hxy : x < y := (List.chain'_cons.mp h).1
        linarith
      · exact ih (List.chain'_cons.mp h).2 z hz

/-- Lemma: `diffs` shortens a list by one. -/
theorem diffs_length : ∀ (l : List ℚ), (diffs l).length = l.length - 1 := by
  intro l
  induction l with
  | nil => rfl
  | cons x xs ih =>
    cases xs with
    | nil => rfl
    | cons y rest =>
      rw [show diffs (x :: y :: rest) = qsub y x :: diffs (y :: rest) from rfl]
      simp only [List.length_cons]
      rw [ih]
      simp

/-- Full specification of the `bestScan` accumulator loop: starting from an
accumulator holding the distance of its own index, the result holds the
distance of the returned index, which comes from the accumulator or the
scanned list, is a minimizer over the scanned indices, strictly beats every
scanned index smaller than it, strictly beats the accumulator whenever it
was replaced, and never moves left. -/
theorem bestScan_spec (d : ℕ → ℚ) :
    ∀ (l : List ℕ) (acc : ℚ × ℕ), acc.1 = d acc.2 →
      (∀ j ∈ l, acc.2 < j) → l.Pairwise (· < ·) →
      (bestScan d l acc).1 = d (bestScan d l acc).2 ∧
      ((bestScan d l acc).2 = acc.2 ∨ (bestScan d l acc).2 ∈ l) ∧
      (bestScan d l acc).1 ≤ acc.1 ∧
      (∀ j ∈ l, (bestScan d l acc).1 ≤ d j) ∧
      (∀ j ∈ l, j < (bestScan d l acc).2 → (bestScan d l acc).1 < d j) ∧
      ((bestScan d l acc).2 ∈ l → (bestScan d l acc).1 < acc.1) ∧
      acc.2 ≤ (bestScan d l acc).2 := by
  intro l
  induction l with
  | nil =>
    intro acc hacc _ _
    refine ⟨hacc, Or.inl rfl, le_refl _, ?_, ?_, ?_, le_refl _⟩ <;> simp [bestScan]
  | cons i rest ih =>
    intro acc hacc hlow hpw
    have hai : acc.2 < i := hlow i (List.mem_cons_self i rest)
    have hpw' : rest.Pairwise (· < ·) := (List.pairwise_cons.mp hpw).2
    have hilow : ∀ j ∈ rest, i < j := (List.pairwise_cons.mp hpw).1
    by_cases hcmp : d i < acc.1
    · have hstep : bestScan d (i :: rest) acc = bestScan d rest (d i, i) := by
        simp [bestScan, hcmp]
      obtain ⟨R1, R2, R3, R4, R5, R6, R7⟩ := ih (d i, i) rfl hilow hpw'
      rw [hstep]
      refine ⟨R1, ?_, ?_, ?_, ?_, ?_, ?_⟩
      · rcases R2 with h | h
        · exact Or.inr (h ▸ List.mem_cons_self i rest)
        · exact Or.inr (List.mem_cons_of_mem _ h)
      · exact le_of_lt (lt_of_le_of_lt R3 hcmp)
      · intro j hj
        rcases List.mem_cons.mp hj with hj | hj
        · exact hj ▸ R3
        · exact R4 j hj
      · intro j hj hjlt
        rcases List.mem_cons.mp hj with hj | hj
        · subst hj
          rcases R2 with h | h
          · omega
          · exact R6 h
        · exact R5 j hj hjlt
      · intro _
        exact lt_of_le_of_lt R3 hcmp
      · exact le_of_lt (lt_of_lt_of_le hai R7)
    · have hstep : bestScan d (i :: rest) acc = bestScan d rest acc := by
        simp [bestScan, hcmp]
      have hge : acc.1 ≤ d i := le_of_not_lt hcmp
      have hlow' : ∀ j ∈ rest, acc.2 < j := fun j hj => lt_trans hai (hilow j hj)
      obtain ⟨R1, R2, R3, R4, R5, R6, R7⟩ := ih acc hacc hlow' hpw'
      rw [hstep]
      refine ⟨R1, ?_, R3, ?_, ?_, ?_, R7⟩
      · rcases R2 with h | h
        · exact Or.inl h
        · exact Or.inr (List.mem_cons_of_mem _ h)
      · intro j hj
        rcases List.mem_cons.mp hj with hj | hj
        · exact hj ▸ le_trans R3 hge
        · exact R4 j hj
      · intro j hj hjlt
        rcases List.mem_cons.mp hj with hj | hj
        · subst hj
          rcases R2 with h | h
          · omega
          · exact lt_of_lt_of_le (R6 h) hge
        · exact R5 j hj hjlt
      · intro hr
        rcases List.mem_cons.mp hr with hr | hr
        · rcases R2 with h | h
          · omega
          · exact R6 h
        · exact R6 hr

/-- In a strictly ascending list, the head is a lower bound. -/
theorem head_le_of_pairwise {l : List ℕ} {h0 x : ℕ} (hh : l.head? = some h0)
    (hp : l.Pairwise (· < ·)) (hx : x ∈ l) : h0 ≤ x := by
  cases l with
  | nil => simp at hh
  | cons y ys =>
    rw [List.head?_cons, Option.some_inj] at hh
    subst hh
    rcases List.mem_cons.mp hx with hx | hx
    · omega
    · exact le_of_lt ((List.pairwise_cons.mp hp).1 x hx)

/-- One step of the sync-position scan either appends the current bar (and
anchors on it) or keeps the state unchanged. -/
theorem syncStep_cases (a : DriftAnalyzer) (base : ℕ) (st : List ℕ × ℕ) (bar : ℕ) :
    a.syncStep base st bar = (st.1 ++ [bar], bar) ∨ a.syncStep base st bar = st := by
  rw [DriftAnalyzer.syncStep]
  split_ifs <;> simp

/-- Invariant of the `_find_sync_point_positions` loop: folding the scan
step over strictly ascending bars, all larger than the current anchor,
keeps the position list strictly ascending with unchanged head and every
element at most the anchor. -/
theorem syncFold_spec (a : DriftAnalyzer) (base : ℕ) :
    ∀ (bars : List ℕ) (st : List ℕ × ℕ) (h0 : ℕ),
      st.1.head? = some h0 →
      st.1.Pairwise (· < ·) →
      (∀ x ∈ st.1, x ≤ st.2) →
      (st.2 :: bars).Pairwise (· < ·) →
      (bars.foldl (a.syncStep base) st).1.head? = some h0 ∧
      (bars.foldl (a.syncStep base) st).1.Pairwise (· < ·) ∧
      (∀ x ∈ (bars.foldl (a.syncStep base) st).1,
        x ≤ (bars.foldl (a.syncStep base) st).2) := by
  intro bars
  induction bars with
  | nil =>
    intro st h0 hh hpw hub _
    exact ⟨hh, hpw, hub⟩
  | cons bar rest ih =>
    intro st h0 hh hpw hub hbars
    have hbar : st.2 < bar := (List.pairwise_cons.mp hbars).1 bar (List.mem_cons_self bar rest)
    have hbars' : (bar :: rest).Pairwise (· < ·) := (List.pairwise_cons.mp hbars).2
    rw [List.foldl_cons]
    rcases syncStep_cases a base st bar with hcase | hcase
    · rw [hcase]
      apply ih (st.1 ++ [bar], bar) h0
      · cases hl : st.1 with
        | nil => rw [hl] at hh; simp at hh
        | cons z zs =>
          rw [hl] at hh
          simpa using hh
      · rw [List.pairwise_append]
        refine ⟨hpw, List.pairwise_singleton _ _, ?_⟩
        intro x hx y hy
        rw [List.mem_singleton] at hy
        subst hy
        exact lt_of_le_of_lt (hub x hx) hbar
      · intro x hx
        rcases List.mem_append.mp hx with hx | hx
        · exact le_of_lt (lt_of_le_of_lt (hub x hx) hbar)
        · rw [List.mem_singleton] at hx
          omega
      · exact hbars'
    · rw [hcase]
      apply ih st h0 hh hpw hub
      rw [List.pairwise_cons]
      refine ⟨?_, (List.pairwise_cons.mp hbars').2⟩
      intro y hy
      exact lt_trans hbar ((List.pairwise_cons.mp hbars').1 y hy)

/-- Theorem: `_find_sync_point_positions` always returns a strictly ascending list
headed by `tab_start_bar`. -/
theorem find_sync_point_positions_spec (a : DriftAnalyzer) (max_bars base : ℕ) :
    (a.find_sync_point_positions max_bars base).head? = some a.tab_start_bar ∧
    (a.find_sync_point_positions max_bars base).Pairwise (· < ·) := by
  rw [DriftAnalyzer.find_sync_point_positions]
  have h := syncFold_spec a base
    (List.range' (a.tab_start_bar + 1) (max_bars - (a.tab_start_bar + 1)))
    ([a.tab_start_bar], a.tab_start_bar) a.tab_start_bar rfl
    (List.pairwise_singleton _ _) (by intro x hx; rw [List.mem_singleton] at hx; omega) ?_
  · exact ⟨h.1, h.2.1⟩
  · rw [List.pairwise_cons]
    refine ⟨?_, List.pairwise_lt_range' _ _⟩
    intro y hy
    have := List.mem_range'_1.mp hy
    omega

/-- The bars of the static planner, `range(0, max_bars, step)` for a
positive step, are strictly ascending. -/
theorem rangeStep_pairwise (max_bars step : ℕ) (h : 0 < step) :
    (rangeStep max_bars step).Pairwise (· < ·) := by
  rw [rangeStep]
  apply List.Pairwise.map
  · intro m n hmn
    exact (Nat.mul_lt_mul_right h).mpr hmn
  · exact List.pairwise_lt_range _

/-- The static planner starts at bar `0` whenever `max_bars ≥ 1`. -/
theorem rangeStep_head (max_bars step : ℕ) (hs : 0 < step) (hm : 0 < max_bars) :
    (rangeStep max_bars step).head? = some 0 := by
  rw [rangeStep]
  have hn : 0 < (max_bars + step - 1) / step := Nat.div_pos (by omega) hs
  cases hr : List.range ((max_bars + step - 1) / step) with
  | nil =>
    have := List.length_range ((max_bars + step - 1) / step)
    rw [hr] at this
    simp at this
    omega
  | cons z zs =>
    have hz : z = 0 := by
      have : (List.range ((max_bars + step - 1) / step)).head? = some z := by
        rw [hr]; rfl
      cases hq : (max_bars + step - 1) / step with
      | zero => omega
      | succ k =>
        rw [hq, List.range_succ_eq_map] at this
        simpa using this.symm
    simp [hz]

/-- With intro bars and a nonzero first beat, the adaptive generator
prepends the stretched intro sync point. -/
theorem adaptive_eq_intro (a : DriftAnalyzer) (max_bars base_interval : ℕ)
    (h : 0 < a.tab_start_bar) (hz : a.first_beat_time ≠ 0) :
    a.generate_adaptive_sync_points max_bars base_interval =
      some (⟨0, 0,
        qmul a.original_tempo
          (qdiv (qmul (qn a.tab_start_bar) a.expected_bar_duration) a.first_beat_time),
        a.original_tempo⟩ :: a.plannedSyncPoints max_bars base_interval) := by
  unfold DriftAnalyzer.generate_adaptive_sync_points
  rw [if_pos h, if_neg hz]

/-- Without intro bars the adaptive generator returns exactly the planned
sync points. -/
theorem adaptive_eq_tab_zero (a : DriftAnalyzer) (max_bars base_interval : ℕ)
    (h : a.tab_start_bar = 0) :
    a.generate_adaptive_sync_points max_bars base_interval =
      some (a.plannedSyncPoints max_bars base_interval) := by
  unfold DriftAnalyzer.generate_adaptive_sync_points
  rw [if_neg (by omega)]

/-- Claim C7: `DriftAnalyzer` construction raises `InsufficientBeatsError`
exactly when fewer than 4 beat timestamps are supplied, and succeeds for
every list of 4 or more beat times (for a positive tab tempo, which is the
validity assumption of the spec; a zero tempo would instead raise
`ZeroDivisionError` at `60.0 / original_tempo`). -/
theorem C7_constructor_requires_four_beats (beat_times : List ℚ) (original_tempo : ℚ)
    (beats_per_bar sample_rate tab_start_bar : ℕ) (htempo : 0 < original_tempo) :
    (mkDriftAnalyzer beat_times original_tempo beats_per_bar sample_rate tab_start_bar
        = .error .insufficientBeats ↔ beat_times.length < 4) ∧
    (4 ≤ beat_times.length →
      mkDriftAnalyzer beat_times original_tempo beats_per_bar sample_rate tab_start_bar
        = .ok ⟨beat_times, original_tempo, beats_per_bar, sample_rate, tab_start_bar⟩) := by
  have hne : original_tempo ≠ 0 := ne_of_gt htempo
  by_cases hlen : beat_times.length < 4
  · rw [mkDriftAnalyzer, if_pos hlen]
    exact ⟨iff_of_true rfl hlen, fun h4 => absurd h4 (by omega)⟩
  · rw [mkDriftAnalyzer, if_neg hlen, if_neg hne]
    exact ⟨iff_of_false (fun h => Except.noConfusion h) hlen, fun _ => rfl⟩

/-- Witness for C7 at the spec's concrete input: `[0.0, 0.5, 1.0]` with tab
tempo 120 raises `InsufficientBeatsError`. -/
theorem C7_witness :
    (0 : ℚ) < q 120 1 ∧
    ((mkDriftAnalyzer [q 0 1, q 1 2, q 1 1] (q 120 1) 4 44100 0
        = .error .insufficientBeats ↔ ([q 0 1, q 1 2, q 1 1] : List ℚ).length < 4) ∧
      (4 ≤ ([q 0 1, q 1 2, q 1 1] : List ℚ).length →
        mkDriftAnalyzer [q 0 1, q 1 2, q 1 1] (q 120 1) 4 44100 0
          = .ok ⟨[q 0 1, q 1 2, q 1 1], q 120 1, 4, 44100, 0⟩)) :=
  ⟨by decide, C7_constructor_requires_four_beats [q 0 1, q 1 2, q 1 1] (q 120 1) 4 44100 0
    (by decide)⟩

/-- Claim C10: with intro bars (`tab_start_bar > 0`), the adaptive generator
is total exactly when the first detected beat time is nonzero — the
unguarded division by `first_beat_time` is its only failure. -/
theorem C10_intro_division_precondition (a : DriftAnalyzer) (max_bars base_interval : ℕ)
    (h : 0 < a.tab_start_bar) :
    (a.generate_adaptive_sync_points max_bars base_interval).isSome ↔
      a.first_beat_time ≠ 0 := by
  unfold DriftAnalyzer.generate_adaptive_sync_points
  rw [if_pos h]
  by_cases hz : a.first_beat_time = 0
  · rw [if_pos hz]
    simp [hz]
  · rw [if_neg hz]
    simp [hz]

/-- Witness for C10: a first beat at time `0.0` with `tab_start_bar = 1`
reaches the division's error branch. -/
theorem C10_witness :
    0 < (⟨[q 0 1, q 1 2, q 1 1, q 3 2], q 120 1, 4, 44100, 1⟩ : DriftAnalyzer).tab_start_bar ∧
    (((⟨[q 0 1, q 1 2, q 1 1, q 3 2], q 120 1, 4, 44100, 1⟩ : DriftAnalyzer).generate_adaptive_sync_points
        4 4).isSome ↔
      (⟨[q 0 1, q 1 2, q 1 1, q 3 2], q 120 1, 4, 44100, 1⟩ : DriftAnalyzer).first_beat_time ≠ 0) ∧
    (⟨[q 0 1, q 1 2, q 1 1, q 3 2], q 120 1, 4, 44100, 1⟩ : DriftAnalyzer).generate_adaptive_sync_points
        4 4 = none :=
  ⟨by decide,
   C10_intro_division_precondition ⟨[q 0 1, q 1 2, q 1 1, q 3 2], q 120 1, 4, 44100, 1⟩ 4 4
     (by decide),
   by decide⟩

/-- Counterexample to claim C4 as stated: for the analyzer with beats
`[0.0, 0.5, 1.0, 1.5]` and `tab_start_bar = 2`, `tab_start_bar > 0` holds
but `generate_adaptive_sync_points` raises `ZeroDivisionError` (modelled as
`none`) instead of prepending an intro sync point, because the division by
`first_beat_time = 0` is unguarded. -/
theorem C4_counterexample :
    0 < (⟨[q 0 1, q 1 2, q 1 1, q 3 2], q 120 1, 4, 44100, 2⟩ : DriftAnalyzer).tab_start_bar ∧
    (⟨[q 0 1, q 1 2, q 1 1, q 3 2], q 120 1, 4, 44100, 2⟩ : DriftAnalyzer).generate_adaptive_sync_points
      3 4 = none := by decide

/-- Claim C4 (amended with the precondition `first_beat_time ≠ 0` that the
unguarded division forces): with intro bars and a nonzero first beat time,
the adaptive generator prepends exactly one sync point with `bar = 0`,
`frame_offset = 0` and
`modified_tempo = original_tempo * (expected_intro_duration / first_beat_time)`
where `expected_intro_duration = tab_start_bar * expected_bar_duration`;
with `tab_start_bar = 0` no such point is added. -/
theorem C4_intro_stretching (a : DriftAnalyzer) (max_bars base_interval : ℕ) :
    (0 < a.tab_start_bar → a.first_beat_time ≠ 0 →
      a.generate_adaptive_sync_points max_bars base_interval =
        some (⟨0, 0,
          a.original_tempo *
            ((a.tab_start_bar : ℚ) * a.expected_bar_duration / a.first_beat_time),
          a.original_tempo⟩ :: a.plannedSyncPoints max_bars base_interval)) ∧
    (a.tab_start_bar = 0 →
      a.generate_adaptive_sync_points max_bars base_interval =
        some (a.plannedSyncPoints max_bars base_interval)) := by
  constructor
  · intro h hz
    rw [adaptive_eq_intro a max_bars base_interval h hz, qmul_eq, qdiv_eq, qmul_eq, qn_eq]
  · intro h
    exact adaptive_eq_tab_zero a max_bars base_interval h

/-- Witness for C4: beats `[1.0, 1.5, 2.0, 2.5]`, tempo 120, two intro
bars: the prepended point carries the stretched tempo
`120 * (2 * 2.0 / 1.0) = 480`. -/
theorem C4_witness :
    ((⟨[q 1 1, q 3 2, q 2 1, q 5 2], q 120 1, 4, 44100, 2⟩ : DriftAnalyzer).generate_adaptive_sync_points
        3 4 =
      some (⟨0, 0,
        (⟨[q 1 1, q 3 2, q 2 1, q 5 2], q 120 1, 4, 44100, 2⟩ : DriftAnalyzer).original_tempo *
          (((⟨[q 1 1, q 3 2, q 2 1, q 5 2], q 120 1, 4, 44100, 2⟩ : DriftAnalyzer).tab_start_bar : ℚ) *
              (⟨[q 1 1, q 3 2, q 2 1, q 5 2], q 120 1, 4, 44100, 2⟩ : DriftAnalyzer).expected_bar_duration /
            (⟨[q 1 1, q 3 2, q 2 1, q 5 2], q 120 1, 4, 44100, 2⟩ : DriftAnalyzer).first_beat_time),
        (⟨[q 1 1, q 3 2, q 2 1, q 5 2], q 120 1, 4, 44100, 2⟩ : DriftAnalyzer).original_tempo⟩ ::
        (⟨[q 1 1, q 3 2, q 2 1, q 5 2], q 120 1, 4, 44100, 2⟩ : DriftAnalyzer).plannedSyncPoints 3 4)) ∧
    ((⟨[q 1 1, q 3 2, q 2 1, q 5 2], q 120 1, 4, 44100, 2⟩ : DriftAnalyzer).generate_adaptive_sync_points
        3 4).map (fun l => l.head?.map SyncPointData.modified_tempo) = some (some (q 480 1)) :=
  ⟨(C4_intro_stretching ⟨[q 1 1, q 3 2, q 2 1, q 5 2], q 120 1, 4, 44100, 2⟩ 3 4).1
      (by decide) (by decide),
   by decide⟩

/-- Claim C5: whenever nearest-beat matching returns `None` for a bar at or
after `tab_start_bar`, `_calculate_frame_offset_for_bar` still returns a
value (the embedding is a total function into `ℤ`), extrapolated forward
from `expected_bar_duration`: `int(bar * expected_bar_duration * sample_rate)`
in relative mode, and
`int((first_beat_time + bars_from_start * expected_bar_duration) * sample_rate)`
in absolute mode. -/
theorem C5_extrapolation_beyond_beats (a : DriftAnalyzer) (bar : ℕ) :
    (a.tab_start_bar = 0 → a.find_nearest_beat_to_expected bar = none →
      a.calculate_frame_offset_for_bar bar =
        pyInt ((bar : ℚ) * a.expected_bar_duration * (a.sample_rate : ℚ))) ∧
    (0 < a.tab_start_bar → a.tab_start_bar ≤ bar →
      a.find_nearest_beat_to_expected (bar - a.tab_start_bar) = none →
      a.calculate_frame_offset_for_bar bar =
        pyInt ((a.first_beat_time +
          ((bar - a.tab_start_bar : ℕ) : ℚ) * a.expected_bar_duration) *
          (a.sample_rate : ℚ))) := by
  constructor
  · intro htab hnone
    unfold DriftAnalyzer.calculate_frame_offset_for_bar
    rw [if_neg (by omega), hnone, qmul_eq, qmul_eq, qn_eq, qn_eq]
  · intro htab hbar hnone
    unfold DriftAnalyzer.calculate_frame_offset_for_bar
    rw [if_pos htab, if_neg (by omega)]
    simp only [hnone]
    rw [qmul_eq, qadd_eq, qmul_eq, qn_eq, qn_eq]

/-- Witness for C5: in relative mode, bar 2 of a 1.5-second beat sequence
at tempo 120 extrapolates to frame `int(2 * 2.0 * 44100) = 176400`; in
absolute mode (one intro bar, beats starting at 1.0 s), bar 3 extrapolates
to `int((1.0 + 2 * 2.0) * 44100) = 220500`. -/
theorem C5_witness :
    ((⟨[q 0 1, q 1 2, q 1 1, q 3 2], q 120 1, 4, 44100, 0⟩ : DriftAnalyzer).calculate_frame_offset_for_bar 2 =
      pyInt ((2 : ℚ) *
        (⟨[q 0 1, q 1 2, q 1 1, q 3 2], q 120 1, 4, 44100, 0⟩ : DriftAnalyzer).expected_bar_duration *
        ((⟨[q 0 1, q 1 2, q 1 1, q 3 2], q 120 1, 4, 44100, 0⟩ : DriftAnalyzer).sample_rate : ℚ))) ∧
    ((⟨[q 1 1, q 3 2, q 2 1, q 5 2], q 120 1, 4, 44100, 1⟩ : DriftAnalyzer).calculate_frame_offset_for_bar 3 =
      pyInt (((⟨[q 1 1, q 3 2, q 2 1, q 5 2], q 120 1, 4, 44100, 1⟩ : DriftAnalyzer).first_beat_time +
        (((3 - (⟨[q 1 1, q 3 2, q 2 1, q 5 2], q 120 1, 4, 44100, 1⟩ : DriftAnalyzer).tab_start_bar : ℕ)) : ℚ) *
          (⟨[q 1 1, q 3 2, q 2 1, q 5 2], q 120 1, 4, 44100, 1⟩ : DriftAnalyzer).expected_bar_duration) *
        ((⟨[q 1 1, q 3 2, q 2 1, q 5 2], q 120 1, 4, 44100, 1⟩ : DriftAnalyzer).sample_rate : ℚ))) ∧
    (⟨[q 0 1, q 1 2, q 1 1, q 3 2], q 120 1, 4, 44100, 0⟩ : DriftAnalyzer).calculate_frame_offset_for_bar 2 =
      176400 ∧
    (⟨[q 1 1, q 3 2, q 2 1, q 5 2], q 120 1, 4, 44100, 1⟩ : DriftAnalyzer).calculate_frame_offset_for_bar 3 =
      220500 :=
  ⟨(C5_extrapolation_beyond_beats ⟨[q 0 1, q 1 2, q 1 1, q 3 2], q 120 1, 4, 44100, 0⟩ 2).1
      rfl (by decide),
   (C5_extrapolation_beyond_beats ⟨[q 1 1, q 3 2, q 2 1, q 5 2], q 120 1, 4, 44100, 1⟩ 3).2
      (by decide) (by decide) (by decide),
   by decide, by decide⟩

/-- Claim C9 (spec-modelled: `BeatDetector.correct_tempo_multiple` is only
called, never defined, under `src/`): when the detected-to-reference tempo
ratio lies in neither octave tolerance band (`[1.8, 2.2]` around double
time, `[0.45, 0.55]` around half time — a ratio near 1.0 such as
`125 / 120 ≈ 1.04` lies in neither), tempo correction returns its input
unchanged, hence is idempotent there. -/
theorem C9_tempo_correction_identity (bi : BeatInfo) (reference_tempo : ℚ)
    (hnot2 : ¬(q 9 5 ≤ qdiv bi.bpm reference_tempo ∧
      qdiv bi.bpm reference_tempo ≤ q 11 5))
    (hnothalf : ¬(q 9 20 ≤ qdiv bi.bpm reference_tempo ∧
      qdiv bi.bpm reference_tempo ≤ q 11 20)) :
    correct_tempo_multiple bi reference_tempo = bi ∧
    correct_tempo_multiple (correct_tempo_multiple bi reference_tempo) reference_tempo
      = bi := by
  have h1 : correct_tempo_multiple bi reference_tempo = bi := by
    unfold correct_tempo_multiple
    rw [if_neg hnot2, if_neg hnothalf]
  refine ⟨h1, ?_⟩
  rw [h1, h1]

/-- Witness for C9 at the spec's concrete input: detected 125 BPM against
reference 120 (ratio `25/24 ≈ 1.04`) is returned unchanged. -/
theorem C9_witness :
    ¬(q 9 5 ≤ qdiv (q 125 1) (q 120 1) ∧ qdiv (q 125 1) (q 120 1) ≤ q 11 5) ∧
    ¬(q 9 20 ≤ qdiv (q 125 1) (q 120 1) ∧ qdiv (q 125 1) (q 120 1) ≤ q 11 20) ∧
    (correct_tempo_multiple ⟨q 125 1, [q 0 1, q 1 2], q 1 1⟩ (q 120 1)
        = ⟨q 125 1, [q 0 1, q 1 2], q 1 1⟩ ∧
      correct_tempo_multiple
        (correct_tempo_multiple ⟨q 125 1, [q 0 1, q 1 2], q 1 1⟩ (q 120 1)) (q 120 1)
        = ⟨q 125 1, [q 0 1, q 1 2], q 1 1⟩) :=
  ⟨by decide, by decide,
   C9_tempo_correction_identity ⟨q 125 1, [q 0 1, q 1 2], q 1 1⟩ (q 120 1)
     (by decide) (by decide)⟩

/-- Claim C6: for a valid analyzer (strictly increasing beats) and any bar
at or after `tab_start_bar`, the local tempo is `60` divided by the median
of the beat-to-beat intervals in the sliding window of `window_beats = 8`
beats centered on the estimated beat index
`(bar - tab_start_bar) * beats_per_bar` (the slice from `estimated - 4` to
`estimated + 4`, clipped to the array), and is the unchanged
`original_tempo` exactly when the estimated index is at or past the end of
the detected beats or the window holds fewer than 2 beats. -/
theorem C6_local_tempo_median (a : DriftAnalyzer) (bar : ℕ)
    (hsorted : a.beat_times.Pairwise (· < ·)) (hbar : a.tab_start_bar ≤ bar) :
    a.calculate_local_tempo_at_bar bar 8 =
      if a.beat_times.length ≤ (bar - a.tab_start_bar) * a.beats_per_bar ∨
          (a.localTempoWindow bar 8).length < 2 then a.original_tempo
      else 60 / pyMedian (diffs (a.localTempoWindow bar 8)) := by
  unfold DriftAnalyzer.calculate_local_tempo_at_bar
  rw [if_neg (by omega)]
  by_cases hpast : a.beat_times.length ≤ (bar - a.tab_start_bar) * a.beats_per_bar
  · rw [if_pos hpast, if_pos (Or.inl hpast)]
  · rw [if_neg hpast]
    by_cases hwin : (a.localTempoWindow bar 8).length < 2
    · rw [if_pos hwin, if_pos (Or.inr hwin)]
    · rw [if_neg hwin]
      have hwchain : (a.localTempoWindow bar 8).Chain' (· < ·) := by
        have hfull : a.beat_times.Chain' (· < ·) := List.chain'_iff_pairwise.mpr hsorted
        unfold DriftAnalyzer.localTempoWindow
        exact List.Chain'.take (List.Chain'.drop hfull _) _
      have hdne : diffs (a.localTempoWindow bar 8) ≠ [] := by
        intro hd
        have := diffs_length (a.localTempoWindow bar 8)
        rw [hd] at this
        simp at this
        omega
      have hdpos : ∀ x ∈ diffs (a.localTempoWindow bar 8), 0 < x :=
        diffs_pos _ hwchain
      have hmed : 0 < pyMedian (diffs (a.localTempoWindow bar 8)) :=
        pyMedian_pos hdne hdpos
      have hdisj : ¬(a.beat_times.length ≤ (bar - a.tab_start_bar) * a.beats_per_bar ∨
          (a.localTempoWindow bar 8).length < 2) := by
        push_neg
        exact ⟨by omega, by omega⟩
      simp only [if_neg hdne, if_neg (not_le.mpr hmed)]
      rw [if_neg hdisj, qdiv_eq, qn_eq]
      norm_num

/-- Witness for C6: five regular half-second beats at tab tempo 120; the
window at bar 0 holds all beats, the median interval is 0.5 s, and the
local tempo evaluates to 120 BPM. -/
theorem C6_witness :
    (⟨[q 0 1, q 1 2, q 1 1, q 3 2, q 2 1], q 120 1, 4, 44100, 0⟩ : DriftAnalyzer).beat_times.Pairwise
        (· < ·) ∧
    ((⟨[q 0 1, q 1 2, q 1 1, q 3 2, q 2 1], q 120 1, 4, 44100, 0⟩ : DriftAnalyzer).calculate_local_tempo_at_bar
        0 8 =
      if (⟨[q 0 1, q 1 2, q 1 1, q 3 2, q 2 1], q 120 1, 4, 44100, 0⟩ : DriftAnalyzer).beat_times.length ≤
          (0 - (⟨[q 0 1, q 1 2, q 1 1, q 3 2, q 2 1], q 120 1, 4, 44100, 0⟩ : DriftAnalyzer).tab_start_bar) *
            (⟨[q 0 1, q 1 2, q 1 1, q 3 2, q 2 1], q 120 1, 4, 44100, 0⟩ : DriftAnalyzer).beats_per_bar ∨
          ((⟨[q 0 1, q 1 2, q 1 1, q 3 2, q 2 1], q 120 1, 4, 44100, 0⟩ : DriftAnalyzer).localTempoWindow
              0 8).length < 2 then
        (⟨[q 0 1, q 1 2, q 1 1, q 3 2, q 2 1], q 120 1, 4, 44100, 0⟩ : DriftAnalyzer).original_tempo
      else 60 / pyMedian (diffs
        ((⟨[q 0 1, q 1 2, q 1 1, q 3 2, q 2 1], q 120 1, 4, 44100, 0⟩ : DriftAnalyzer).localTempoWindow
          0 8))) ∧
    (⟨[q 0 1, q 1 2, q 1 1, q 3 2, q 2 1], q 120 1, 4, 44100, 0⟩ : DriftAnalyzer).calculate_local_tempo_at_bar
      0 8 = q 120 1 :=
  ⟨by decide,
   C6_local_tempo_median ⟨[q 0 1, q 1 2, q 1 1, q 3 2, q 2 1], q 120 1, 4, 44100, 0⟩ 0
     (by decide) (by decide),
   by decide⟩


/-- The static path of `generate_sync_points` with the default
`beats_per_bar = 4`, `sync_interval = 16` and an explicit positive bar
bound: sync points every 4 bars at the tab tempo. -/
theorem generate_sync_points_static_eq (bi : BeatInfo) (original_tempo start_offset : ℚ)
    (m : ℤ) (h2 : 2 ≤ bi.beat_times.length) (htempo : 0 < original_tempo) :
    generate_sync_points 44100 bi original_tempo 4 16 start_offset (some m) false =
      .ok ⟨staticSyncPoints 44100 original_tempo 4 4 m.toNat,
        -pyInt (qmul (qadd ((bi.beat_times.head?).getD 0) start_offset) (qn 44100)),
        qadd ((bi.beat_times.head?).getD 0) start_offset⟩ := by
  have hne : bi.beat_times ≠ [] := by
    intro h
    rw [h] at h2
    simp at h2
  have htz : original_tempo ≠ 0 := ne_of_gt htempo
  unfold generate_sync_points
  rw [if_neg hne, if_neg (show ¬bi.beat_times.length < 2 by omega)]
  simp only [resolveMaxBars, staticSyncPointsE, if_neg htz]
  norm_num

/-- The bars of the planned sync points are exactly the planned positions. -/
theorem plannedSyncPoints_map_bar (a : DriftAnalyzer) (max_bars base_interval : ℕ) :
    (a.plannedSyncPoints max_bars base_interval).map SyncPointData.bar =
      a.find_sync_point_positions max_bars base_interval := by
  unfold DriftAnalyzer.plannedSyncPoints
  rw [List.map_map]
  exact List.map_id' (a.find_sync_point_positions max_bars base_interval)

/-- The bars of the static sync points are exactly `range(0, max_bars, step)`. -/
theorem staticSyncPoints_map_bar (sample_rate : ℕ) (original_tempo : ℚ)
    (beats_per_bar bar_interval max_bars : ℕ) :
    (staticSyncPoints sample_rate original_tempo beats_per_bar bar_interval max_bars).map
      SyncPointData.bar = rangeStep max_bars bar_interval := by
  unfold staticSyncPoints
  rw [List.map_map]
  exact List.map_id' (rangeStep max_bars bar_interval)

/-- Claim C2 (amended for the intro sync point): for every valid input the
static planner (`adaptive=False`) and the adaptive planner both return
strictly ascending (hence unique) bar numbers; the static result and the
adaptive result with `tab_start_bar = 0` start at bar
`tab_start_bar = 0`, while the adaptive result with `tab_start_bar > 0`
starts with the intro point at bar 0 followed by the planned bars from
`tab_start_bar`. -/
theorem C2_sync_point_bars_ascending (bi : BeatInfo) (original_tempo start_offset : ℚ)
    (m : ℤ) (a : DriftAnalyzer) (max_bars base_interval : ℕ)
    (h2 : 2 ≤ bi.beat_times.length) (_hsorted : bi.beat_times.Pairwise (· < ·))
    (htempo : 0 < original_tempo) (hm : 1 ≤ m) :
    (∃ r, generate_sync_points 44100 bi original_tempo 4 16 start_offset (some m) false =
        .ok r ∧
      (r.sync_points.map SyncPointData.bar).Pairwise (· < ·) ∧
      (r.sync_points.map SyncPointData.bar).head? = some 0) ∧
    (∀ l, a.generate_adaptive_sync_points max_bars base_interval = some l →
      (l.map SyncPointData.bar).Pairwise (· < ·) ∧
      (a.tab_start_bar = 0 → (l.map SyncPointData.bar).head? = some a.tab_start_bar) ∧
      (0 < a.tab_start_bar → (l.map SyncPointData.bar).head? = some 0 ∧
        (l.map SyncPointData.bar).tail.head? = some a.tab_start_bar)) := by
  constructor
  · refine ⟨_, generate_sync_points_static_eq bi original_tempo start_offset m h2 htempo, ?_, ?_⟩
    · rw [staticSyncPoints_map_bar]
      exact rangeStep_pairwise _ _ (by norm_num)
    · rw [staticSyncPoints_map_bar]
      exact rangeStep_head _ _ (by norm_num) (by omega)
  · intro l hl
    obtain ⟨hhead, hpw⟩ := find_sync_point_positions_spec a max_bars base_interval
    by_cases htab : a.tab_start_bar = 0
    · rw [adaptive_eq_tab_zero a max_bars base_interval htab] at hl
      have hl' : l = a.plannedSyncPoints max_bars base_interval := (Option.some_inj.mp hl).symm
      subst hl'
      rw [plannedSyncPoints_map_bar]
      exact ⟨hpw, fun _ => by rw [hhead], fun h0 => absurd htab (by omega)⟩
    · have htabpos : 0 < a.tab_start_bar := by omega
      have hz : a.first_beat_time ≠ 0 := by
        intro hz0
        rw [DriftAnalyzer.generate_adaptive_sync_points, if_pos htabpos, if_pos hz0] at hl
        exact Option.noConfusion hl
      rw [adaptive_eq_intro a max_bars base_interval htabpos hz] at hl
      have hl' : l = _ :: a.plannedSyncPoints max_bars base_interval :=
        (Option.some_inj.mp hl).symm
      subst hl'
      rw [List.map_cons, plannedSyncPoints_map_bar]
      have hlb : ∀ x ∈ a.find_sync_point_positions max_bars base_interval,
          a.tab_start_bar ≤ x :=
        fun x hx => head_le_of_pairwise hhead hpw hx
      refine ⟨?_, fun h0 => absurd h0 htab, fun _ => ⟨rfl, by rw [List.tail_cons, hhead]⟩⟩
      rw [List.pairwise_cons]
      refine ⟨fun y hy => lt_of_lt_of_le htabpos (hlb y hy), hpw⟩

/-- For any valid input with the default `beats_per_bar = 4` and
`sync_interval = 16`, `generate_sync_points` succeeds, and its
`frame_padding` and `first_beat_time` are computed from
`beat_times[0] + start_offset` regardless of the planner branch taken. -/
theorem generate_sync_points_ok (bi : BeatInfo) (original_tempo start_offset : ℚ)
    (max_bars : Option ℤ) (adaptive : Bool)
    (h2 : 2 ≤ bi.beat_times.length) (htempo : 0 < original_tempo) :
    ∃ pts, generate_sync_points 44100 bi original_tempo 4 16 start_offset max_bars adaptive =
      .ok ⟨pts, -pyInt (qmul (qadd ((bi.beat_times.head?).getD 0) start_offset) (qn 44100)),
        qadd ((bi.beat_times.head?).getD 0) start_offset⟩ := by
  have hne : bi.beat_times ≠ [] := by
    intro h
    rw [h] at h2
    simp at h2
  have htz : original_tempo ≠ 0 := ne_of_gt htempo
  unfold generate_sync_points
  rw [if_neg hne, if_neg (show ¬bi.beat_times.length < 2 by omega)]
  have hres : ∃ mB, resolveMaxBars bi original_tempo 4 max_bars = .ok mB := by
    rcases max_bars with _ | m
    · exact ⟨pyInt (qdiv (qsub ((bi.beat_times.getLast?).getD 0) ((bi.beat_times.head?).getD 0))
        (qmul (qdiv (qn 60) original_tempo) (qn 4))) + 1, by
        simp only [resolveMaxBars, if_neg htz]⟩
    · exact ⟨m, rfl⟩
  obtain ⟨mB, hmB⟩ := hres
  have hstat : staticSyncPointsE 44100 original_tempo 4 (16 / 4) mB.toNat =
      .ok (staticSyncPoints 44100 original_tempo 4 4 mB.toNat) := by
    simp only [staticSyncPointsE, if_neg htz]
    norm_num
  have hpts : ∃ pts,
      (if adaptive then
        generate_adaptive_sync_points_detector 44100 bi original_tempo 4 (16 / 4) mB
      else staticSyncPointsE 44100 original_tempo 4 (16 / 4) mB.toNat) = .ok pts := by
    cases adaptive with
    | false =>
      rw [if_neg (by simp)]
      exact ⟨_, hstat⟩
    | true =>
      rw [if_pos rfl]
      unfold generate_adaptive_sync_points_detector
      by_cases hlen4 : bi.beat_times.length < 4
      · rw [mkDriftAnalyzer, if_pos hlen4]
        exact ⟨_, hstat⟩
      · rw [mkDriftAnalyzer, if_neg hlen4, if_neg htz]
        refine ⟨(⟨bi.beat_times, original_tempo, 4, 44100, 0⟩ : DriftAnalyzer).plannedSyncPoints
          mB.toNat (16 / 4), ?_⟩
        show (match (⟨bi.beat_times, original_tempo, 4, 44100, 0⟩ : DriftAnalyzer).generate_adaptive_sync_points
            mB.toNat (16 / 4) with
          | some pts => Except.ok pts
          | none => Except.error GenError.zeroDivision) = _
        rw [adaptive_eq_tab_zero ⟨bi.beat_times, original_tempo, 4, 44100, 0⟩ mB.toNat (16 / 4)
          rfl]
  obtain ⟨pts, hpE⟩ := hpts
  refine ⟨pts, ?_⟩
  simp only [hmB, hpE]
  rw [if_neg (show ¬((4 : ℕ) = 0) by norm_num)]

/-- Claim C3 (amended: the code truncates with `int(...)`, it does not
round): for every valid input, `generate_sync_points` returns
`frame_padding = -int(first_beat_time * sample_rate)` with
`first_beat_time = beat_times[0] + start_offset`; on the spec's example
(20 beats at `2.0 + 0.5 i`, tempo 120, sample rate 44100, no offset) the
result has `first_beat_time = 2.0`, `frame_padding = -88200`, and the bar-0
sync point sits at `frame_offset = 0`. -/
theorem C3_frame_padding_truncation (bi : BeatInfo) (original_tempo start_offset : ℚ)
    (max_bars : Option ℤ) (adaptive : Bool)
    (h2 : 2 ≤ bi.beat_times.length) (htempo : 0 < original_tempo) :
    ((generate_sync_points 44100 bi original_tempo 4 16 start_offset max_bars
        adaptive).toOption.map SyncResult.frame_padding =
      some (-pyInt (((bi.beat_times.head?).getD 0 + start_offset) * 44100))) ∧
    ((generate_sync_points 44100
        ⟨q 120 1, (List.range 20).map (fun i => qadd (q 2 1) (qmul (qn i) (q 1 2))), q 1 1⟩
        (q 120 1) 4 16 0 none true).toOption.map SyncResult.first_beat_time =
      some (q 2 1)) ∧
    ((generate_sync_points 44100
        ⟨q 120 1, (List.range 20).map (fun i => qadd (q 2 1) (qmul (qn i) (q 1 2))), q 1 1⟩
        (q 120 1) 4 16 0 none true).toOption.map SyncResult.frame_padding =
      some (-88200)) ∧
    ((generate_sync_points 44100
        ⟨q 120 1, (List.range 20).map (fun i => qadd (q 2 1) (qmul (qn i) (q 1 2))), q 1 1⟩
        (q 120 1) 4 16 0 none true).toOption.bind (fun r => r.sync_points.head?) =
      some ⟨0, 0, q 120 1, q 120 1⟩) := by
  refine ⟨?_, by decide, by decide, by decide⟩
  obtain ⟨pts, hok⟩ :=
    generate_sync_points_ok bi original_tempo start_offset max_bars adaptive h2 htempo
  rw [hok]
  show some (-pyInt (qmul (qadd ((bi.beat_times.head?).getD 0) start_offset) (qn 44100))) = _
  rw [qmul_eq, qadd_eq, qn_eq]
  norm_num

/-- Counterexample to claim C3 as stated: with a first beat at
`3/220500` s (so `first_beat_time * 44100 = 0.6`), the code's truncation
yields `frame_padding = -int(0.6) = 0`, while the claimed
`-round(first_beat_time * sample_rate)` is `-1`. -/
theorem C3_counterexample :
    ((generate_sync_points 44100 ⟨q 120 1, [q 3 220500, q 1 1], q 1 1⟩ (q 120 1) 4 16 0
        (some 1) false).toOption.map SyncResult.frame_padding = some 0) ∧
    qmul (qadd ((([q 3 220500, q 1 1] : List ℚ).head?).getD 0) 0) (qn 44100) = q 3 5 ∧
    -pyRound (q 3 5) = -1 := by decide

/-- Witness for C3: two beats at `0.25` s and `0.75` s, tempo 120, static
mode; the padding is `-int(0.25 * 44100) = -11025`. -/
theorem C3_witness :
    (2 ≤ ([q 1 4, q 3 4] : List ℚ).length ∧ (0 : ℚ) < q 120 1) ∧
    ((generate_sync_points 44100 ⟨q 120 1, [q 1 4, q 3 4], q 1 1⟩ (q 120 1) 4 16 0 (some 4)
        false).toOption.map SyncResult.frame_padding =
      some (-pyInt (((([q 1 4, q 3 4] : List ℚ).head?).getD 0 + 0) * 44100))) ∧
    ((generate_sync_points 44100 ⟨q 120 1, [q 1 4, q 3 4], q 1 1⟩ (q 120 1) 4 16 0 (some 4)
        false).toOption.map SyncResult.frame_padding = some (-11025)) :=
  ⟨⟨by decide, by decide⟩,
   (C3_frame_padding_truncation ⟨q 120 1, [q 1 4, q 3 4], q 1 1⟩ (q 120 1) 0 (some 4) false
     (by decide) (by decide)).1,
   by decide⟩

/-- Every static sync point carries the tab tempo as its modified tempo. -/
theorem staticSyncPoints_modified_tempo (sample_rate : ℕ) (original_tempo : ℚ)
    (beats_per_bar bar_interval max_bars : ℕ) :
    ∀ sp ∈ staticSyncPoints sample_rate original_tempo beats_per_bar bar_interval max_bars,
      sp.modified_tempo = original_tempo := by
  intro sp hsp
  unfold staticSyncPoints at hsp
  rw [List.mem_map] at hsp
  obtain ⟨bar, _, hbar⟩ := hsp
  rw [← hbar]

/-- Claim C8: with only 2 or 3 detected beats (so that `DriftAnalyzer`
construction raises `InsufficientBeatsError`), adaptive generation does not
propagate the error: it returns exactly what the static planner returns —
sync points at the fixed `bar_interval = 4` with
`modified_tempo = original_tempo` everywhere. -/
theorem C8_insufficient_beats_fallback (bi : BeatInfo) (original_tempo start_offset : ℚ)
    (max_bars : Option ℤ) (htempo : 0 < original_tempo)
    (h2 : 2 ≤ bi.beat_times.length) (h3 : bi.beat_times.length ≤ 3) :
    (generate_sync_points 44100 bi original_tempo 4 16 start_offset max_bars true =
      generate_sync_points 44100 bi original_tempo 4 16 start_offset max_bars false) ∧
    (∀ r, generate_sync_points 44100 bi original_tempo 4 16 start_offset max_bars true
        = .ok r →
      ∃ n, r.sync_points = staticSyncPoints 44100 original_tempo 4 4 n ∧
        r.sync_points.map SyncPointData.bar = rangeStep n 4 ∧
        ∀ sp ∈ r.sync_points, sp.modified_tempo = original_tempo) := by
  have hne : bi.beat_times ≠ [] := by
    intro h
    rw [h] at h2
    simp at h2
  have htz : original_tempo ≠ 0 := ne_of_gt htempo
  have hdet : ∀ mB : ℤ,
      generate_adaptive_sync_points_detector 44100 bi original_tempo 4 (16 / 4) mB =
        staticSyncPointsE 44100 original_tempo 4 (16 / 4) mB.toNat := by
    intro mB
    unfold generate_adaptive_sync_points_detector
    rw [mkDriftAnalyzer, if_pos (show bi.beat_times.length < 4 by omega)]
  have hstat : ∀ mB : ℤ, staticSyncPointsE 44100 original_tempo 4 (16 / 4) mB.toNat =
      .ok (staticSyncPoints 44100 original_tempo 4 4 mB.toNat) := by
    intro mB
    simp only [staticSyncPointsE, if_neg htz]
    norm_num
  have hmain : ∀ adp : Bool,
      generate_sync_points 44100 bi original_tempo 4 16 start_offset max_bars adp =
        match resolveMaxBars bi original_tempo 4 max_bars with
        | .error e => .error e
        | .ok mB => .ok ⟨staticSyncPoints 44100 original_tempo 4 4 mB.toNat,
            -pyInt (qmul (qadd ((bi.beat_times.head?).getD 0) start_offset) (qn 44100)),
            qadd ((bi.beat_times.head?).getD 0) start_offset⟩ := by
    intro adp
    unfold generate_sync_points
    rw [if_neg hne, if_neg (show ¬bi.beat_times.length < 2 by omega),
      if_neg (show ¬((4 : ℕ) = 0) by norm_num)]
    cases hres : resolveMaxBars bi original_tempo 4 max_bars with
    | error e => rfl
    | ok mB =>
      cases adp with
      | false => simp only [Bool.false_eq_true, if_false, hstat mB]
      | true => simp only [if_true, hdet mB, hstat mB]
  constructor
  · rw [hmain true, hmain false]
  · intro r hr
    rw [hmain true] at hr
    cases hres : resolveMaxBars bi original_tempo 4 max_bars with
    | error e =>
      rw [hres] at hr
      exact absurd hr (by simp)
    | ok mB =>
      rw [hres] at hr
      have hrr : r = ⟨staticSyncPoints 44100 original_tempo 4 4 mB.toNat,
          -pyInt (qmul (qadd ((bi.beat_times.head?).getD 0) start_offset) (qn 44100)),
          qadd ((bi.beat_times.head?).getD 0) start_offset⟩ := by
        cases hr
        rfl
      refine ⟨mB.toNat, ?_, ?_, ?_⟩
      · rw [hrr]
      · rw [hrr]
        exact staticSyncPoints_map_bar _ _ _ _ _
      · rw [hrr]
        exact staticSyncPoints_modified_tempo _ _ _ _ _
  
/-- Witness for C8: three beats at 240 BPM spacing against reference tempo
120 with `max_bars = 8`: the adaptive call falls back to the static planner
with sync points at bars 0 and 4, both at tempo 120. -/
theorem C8_witness :
    ((0 : ℚ) < q 120 1 ∧ 2 ≤ ([q 0 1, q 1 4, q 1 2] : List ℚ).length ∧
      ([q 0 1, q 1 4, q 1 2] : List ℚ).length ≤ 3) ∧
    ((generate_sync_points 44100 ⟨q 240 1, [q 0 1, q 1 4, q 1 2], q 9 10⟩ (q 120 1) 4 16 0
        (some 8) true =
      generate_sync_points 44100 ⟨q 240 1, [q 0 1, q 1 4, q 1 2], q 9 10⟩ (q 120 1) 4 16 0
        (some 8) false) ∧
      (∀ r, generate_sync_points 44100 ⟨q 240 1, [q 0 1, q 1 4, q 1 2], q 9 10⟩ (q 120 1) 4 16 0
          (some 8) true = .ok r →
        ∃ n, r.sync_points = staticSyncPoints 44100 (q 120 1) 4 4 n ∧
          r.sync_points.map SyncPointData.bar = rangeStep n 4 ∧
          ∀ sp ∈ r.sync_points, sp.modified_tempo = q 120 1)) ∧
    ((generate_sync_points 44100 ⟨q 240 1, [q 0 1, q 1 4, q 1 2], q 9 10⟩ (q 120 1) 4 16 0
        (some 8) true).toOption.map (fun r => r.sync_points.map SyncPointData.bar) =
      some [0, 4]) :=
  ⟨⟨by decide, by decide, by decide⟩,
   C8_insufficient_beats_fallback ⟨q 240 1, [q 0 1, q 1 4, q 1 2], q 9 10⟩ (q 120 1) 0 (some 8)
     (by decide) (by decide) (by decide),
   by decide⟩

/-- Counterexample to claim C2 as stated: for the analyzer with one bar of
intro (`tab_start_bar = 2`) the first returned sync point is the intro
point at bar 0, not at `tab_start_bar`. -/
theorem C2_counterexample :
    (⟨[q 1 1, q 3 2, q 2 1, q 5 2], q 120 1, 4, 44100, 2⟩ : DriftAnalyzer).tab_start_bar = 2 ∧
    ((⟨[q 1 1, q 3 2, q 2 1, q 5 2], q 120 1, 4, 44100, 2⟩ : DriftAnalyzer).generate_adaptive_sync_points
        3 4).map (fun l => (l.map SyncPointData.bar).head?) = some (some 0) := by decide

/-- Witness for C2: four regular beats at tempo 120, static bound 8 bars
and an analyzer without intro bars, planning up to 9 bars. -/
theorem C2_witness :
    (2 ≤ ([q 0 1, q 1 2, q 1 1, q 3 2] : List ℚ).length ∧
      ([q 0 1, q 1 2, q 1 1, q 3 2] : List ℚ).Pairwise (· < ·) ∧
      (0 : ℚ) < q 120 1 ∧ (1 : ℤ) ≤ 8) ∧
    ((∃ r, generate_sync_points 44100 ⟨q 120 1, [q 0 1, q 1 2, q 1 1, q 3 2], q 1 1⟩ (q 120 1)
          4 16 0 (some 8) false = .ok r ∧
        (r.sync_points.map SyncPointData.bar).Pairwise (· < ·) ∧
        (r.sync_points.map SyncPointData.bar).head? = some 0) ∧
      (∀ l, (⟨[q 0 1, q 1 2, q 1 1, q 3 2], q 120 1, 4, 44100, 0⟩ : DriftAnalyzer).generate_adaptive_sync_points
          9 4 = some l →
        (l.map SyncPointData.bar).Pairwise (· < ·) ∧
        ((⟨[q 0 1, q 1 2, q 1 1, q 3 2], q 120 1, 4, 44100, 0⟩ : DriftAnalyzer).tab_start_bar = 0 →
          (l.map SyncPointData.bar).head? =
            some (⟨[q 0 1, q 1 2, q 1 1, q 3 2], q 120 1, 4, 44100, 0⟩ : DriftAnalyzer).tab_start_bar) ∧
        (0 < (⟨[q 0 1, q 1 2, q 1 1, q 3 2], q 120 1, 4, 44100, 0⟩ : DriftAnalyzer).tab_start_bar →
          (l.map SyncPointData.bar).head? = some 0 ∧
          (l.map SyncPointData.bar).tail.head? =
            some (⟨[q 0 1, q 1 2, q 1 1, q 3 2], q 120 1, 4, 44100, 0⟩ : DriftAnalyzer).tab_start_bar))) :=
  ⟨⟨by decide, by decide, by decide, by decide⟩,
   C2_sync_point_bars_ascending ⟨q 120 1, [q 0 1, q 1 2, q 1 1, q 3 2], q 1 1⟩ (q 120 1) 0 8
     ⟨[q 0 1, q 1 2, q 1 1, q 3 2], q 120 1, 4, 44100, 0⟩ 9 4
     (by decide) (by decide) (by decide) (by decide)⟩
set_option maxHeartbeats 1600000 in
/-- Claim C1 (amended for the empty-window case): for a valid analyzer,
nearest-beat matching returns `None` exactly when the expected absolute
time exceeds the last detected beat by more than one bar duration.
Otherwise, when the clipped search window
`[nearSearchStart, nearSearchEnd)` is nonempty, the returned index lies in
the window, minimizes the distance to the expected time there, and
strictly beats every smaller window index (first-occurrence tie break);
when the window is empty (estimated index at least two bars of beats past
the array) the code returns the initializer index `0`, which the original
claim does not cover. -/
theorem C1_nearest_beat_matching (a : DriftAnalyzer) (b : ℕ)
    (hlen : 4 ≤ a.beat_times.length) (_hsorted : a.beat_times.Pairwise (· < ·)) :
    (a.find_nearest_beat_to_expected b = none ↔
      ((a.beat_times.getLast?).getD 0) + a.expected_bar_duration < a.nearExpected b) ∧
    (∀ i, a.find_nearest_beat_to_expected b = some i →
      (a.nearSearchStart b < a.nearSearchEnd b →
        a.nearSearchStart b ≤ i ∧ i < a.nearSearchEnd b ∧
        (∀ j, a.nearSearchStart b ≤ j → j < a.nearSearchEnd b →
          a.nearDiff b i ≤ a.nearDiff b j ∧ (j < i → a.nearDiff b i < a.nearDiff b j))) ∧
      (a.nearSearchEnd b ≤ a.nearSearchStart b → i = 0)) := by
  have hne : a.beat_times ≠ [] := by
    intro h
    rw [h] at hlen
    simp at hlen
  unfold DriftAnalyzer.find_nearest_beat_to_expected
  rw [if_neg hne]
  by_cases hcond : qadd ((a.beat_times.getLast?).getD 0) a.expected_bar_duration <
      a.nearExpected b
  · rw [if_pos hcond]
    rw [qadd_eq] at hcond
    constructor
    · exact iff_of_true rfl hcond
    · intro i hi
      exact absurd hi (by simp)
  · rw [if_neg hcond]
    rw [qadd_eq] at hcond
    constructor
    · refine iff_of_false ?_ hcond
      cases hr : List.range' (a.nearSearchStart b)
          (a.nearSearchEnd b - a.nearSearchStart b) with
      | nil => simp
      | cons hd tl => simp
    · intro i hi
      cases hr : List.range' (a.nearSearchStart b)
          (a.nearSearchEnd b - a.nearSearchStart b) with
      | nil =>
        rw [hr] at hi
        have hi0 : i = 0 := by
          have := Option.some_inj.mp hi
          omega
        have hlr : a.nearSearchEnd b - a.nearSearchStart b = 0 := by
          have hL := congrArg List.length hr
          simpa using hL
        exact ⟨fun hlt => absurd hlt (by omega), fun _ => hi0⟩
      | cons hd tl =>
        rw [hr] at hi
        have hlentl : a.nearSearchEnd b - a.nearSearchStart b = tl.length + 1 := by
          have hL := congrArg List.length hr
          simpa using hL
        have hr2 : List.range' (a.nearSearchStart b)
            (a.nearSearchEnd b - a.nearSearchStart b) =
            a.nearSearchStart b :: List.range' (a.nearSearchStart b + 1) tl.length := by
          rw [hlentl, List.range'_succ]
        rw [hr] at hr2
        rw [List.cons.injEq] at hr2
        obtain ⟨hhd, htl⟩ := hr2
        subst hhd
        rw [htl] at hi
        have hse : a.nearSearchStart b < a.nearSearchEnd b := by omega
        obtain ⟨R1, R2, R3, R4, R5, R6, R7⟩ :=
          bestScan_spec (a.nearDiff b) (List.range' (a.nearSearchStart b + 1) tl.length)
            (a.nearDiff b (a.nearSearchStart b), a.nearSearchStart b) rfl
            (fun j hj => by have := List.mem_range'_1.mp hj; omega)
            (List.pairwise_lt_range' _ _)
        have hii :
            (bestScan (a.nearDiff b) (List.range' (a.nearSearchStart b + 1) tl.length)
              (a.nearDiff b (a.nearSearchStart b), a.nearSearchStart b)).2 = i :=
          Option.some_inj.mp hi
        rw [hii] at R1 R2 R5 R6 R7
        have hval :
            (bestScan (a.nearDiff b) (List.range' (a.nearSearchStart b + 1) tl.length)
              (a.nearDiff b (a.nearSearchStart b), a.nearSearchStart b)).1 =
              a.nearDiff b i := R1
        rw [hval] at R3 R4 R5 R6
        have he : a.nearSearchEnd b = a.nearSearchStart b + tl.length + 1 := by omega
        refine ⟨fun _ => ?_, fun hle => absurd hle (by omega)⟩
        have hbound : a.nearSearchStart b ≤ i ∧ i < a.nearSearchEnd b := by
          rcases R2 with h | h
          · omega
          · have := List.mem_range'_1.mp h
            omega
        refine ⟨hbound.1, hbound.2, ?_⟩
        intro j hj1 hj2
        rcases eq_or_lt_of_le hj1 with hjs | hjs
        · constructor
          · exact hjs ▸ R3
          · intro hji
            have hine : i ∈ List.range' (a.nearSearchStart b + 1) tl.length := by
              rcases R2 with h | h
              · omega
              · exact h
            exact hjs ▸ R6 hine
        · have hjmem : j ∈ List.range' (a.nearSearchStart b + 1) tl.length :=
            List.mem_range'_1.mpr ⟨by omega, by omega⟩
          exact ⟨R4 j hjmem, fun hji => R5 j hjmem hji⟩

/-- Counterexample to claim C1 as stated: for beats `[0, 10, 20, 30]` at
tab tempo 240 (bar duration 1 s) and bar offset 3, the expected time 3.0 s
is within one bar of the last beat (so the result is not `None`), but the
clipped window `[12 - 8, min(4, 12 + 8)) = [4, 4)` is empty, and the code
returns the initializer index 0 — which is not an index within the window,
contradicting the claimed characterization. -/
theorem C1_counterexample :
    (⟨[q 0 1, q 10 1, q 20 1, q 30 1], q 240 1, 4, 44100, 0⟩ : DriftAnalyzer).find_nearest_beat_to_expected
      3 = some 0 ∧
    ¬(qadd ((([q 0 1, q 10 1, q 20 1, q 30 1] : List ℚ).getLast?).getD 0)
        (⟨[q 0 1, q 10 1, q 20 1, q 30 1], q 240 1, 4, 44100, 0⟩ : DriftAnalyzer).expected_bar_duration <
      (⟨[q 0 1, q 10 1, q 20 1, q 30 1], q 240 1, 4, 44100, 0⟩ : DriftAnalyzer).nearExpected 3) ∧
    (⟨[q 0 1, q 10 1, q 20 1, q 30 1], q 240 1, 4, 44100, 0⟩ : DriftAnalyzer).nearSearchStart 3 = 4 ∧
    (⟨[q 0 1, q 10 1, q 20 1, q 30 1], q 240 1, 4, 44100, 0⟩ : DriftAnalyzer).nearSearchEnd 3 = 4 ∧
    ¬((⟨[q 0 1, q 10 1, q 20 1, q 30 1], q 240 1, 4, 44100, 0⟩ : DriftAnalyzer).nearSearchStart 3 ≤ 0) := by
  decide

/-- Witness for C1: beats `[0, 0.5, 1, 1.5]` at tempo 120, bar offset 1;
the expected time is 2.0 s, within one bar of the last beat, and the window
`[0, 4)` is nonempty. -/
theorem C1_witness :
    (4 ≤ ([q 0 1, q 1 2, q 1 1, q 3 2] : List ℚ).length ∧
      ([q 0 1, q 1 2, q 1 1, q 3 2] : List ℚ).Pairwise (· < ·)) ∧
    (((⟨[q 0 1, q 1 2, q 1 1, q 3 2], q 120 1, 4, 44100, 0⟩ : DriftAnalyzer).find_nearest_beat_to_expected
        1 = none ↔
      ((((⟨[q 0 1, q 1 2, q 1 1, q 3 2], q 120 1, 4, 44100, 0⟩ : DriftAnalyzer).beat_times.getLast?).getD 0) +
          (⟨[q 0 1, q 1 2, q 1 1, q 3 2], q 120 1, 4, 44100, 0⟩ : DriftAnalyzer).expected_bar_duration <
        (⟨[q 0 1, q 1 2, q 1 1, q 3 2], q 120 1, 4, 44100, 0⟩ : DriftAnalyzer).nearExpected 1)) ∧
    (∀ i, (⟨[q 0 1, q 1 2, q 1 1, q 3 2], q 120 1, 4, 44100, 0⟩ : DriftAnalyzer).find_nearest_beat_to_expected
        1 = some i →
      ((⟨[q 0 1, q 1 2, q 1 1, q 3 2], q 120 1, 4, 44100, 0⟩ : DriftAnalyzer).nearSearchStart 1 <
          (⟨[q 0 1, q 1 2, q 1 1, q 3 2], q 120 1, 4, 44100, 0⟩ : DriftAnalyzer).nearSearchEnd 1 →
        (⟨[q 0 1, q 1 2, q 1 1, q 3 2], q 120 1, 4, 44100, 0⟩ : DriftAnalyzer).nearSearchStart 1 ≤ i ∧
        i < (⟨[q 0 1, q 1 2, q 1 1, q 3 2], q 120 1, 4, 44100, 0⟩ : DriftAnalyzer).nearSearchEnd 1 ∧
        (∀ j, (⟨[q 0 1, q 1 2, q 1 1, q 3 2], q 120 1, 4, 44100, 0⟩ : DriftAnalyzer).nearSearchStart 1 ≤ j →
          j < (⟨[q 0 1, q 1 2, q 1 1, q 3 2], q 120 1, 4, 44100, 0⟩ : DriftAnalyzer).nearSearchEnd 1 →
          (⟨[q 0 1, q 1 2, q 1 1, q 3 2], q 120 1, 4, 44100, 0⟩ : DriftAnalyzer).nearDiff 1 i ≤
            (⟨[q 0 1, q 1 2, q 1 1, q 3 2], q 120 1, 4, 44100, 0⟩ : DriftAnalyzer).nearDiff 1 j ∧
          (j < i →
            (⟨[q 0 1, q 1 2, q 1 1, q 3 2], q 120 1, 4, 44100, 0⟩ : DriftAnalyzer).nearDiff 1 i <
              (⟨[q 0 1, q 1 2, q 1 1, q 3 2], q 120 1, 4, 44100, 0⟩ : DriftAnalyzer).nearDiff 1 j))) ∧
      ((⟨[q 0 1, q 1 2, q 1 1, q 3 2], q 120 1, 4, 44100, 0⟩ : DriftAnalyzer).nearSearchEnd 1 ≤
          (⟨[q 0 1, q 1 2, q 1 1, q 3 2], q 120 1, 4, 44100, 0⟩ : DriftAnalyzer).nearSearchStart 1 →
        i = 0))) ∧
    (⟨[q 0 1, q 1 2, q 1 1, q 3 2], q 120 1, 4, 44100, 0⟩ : DriftAnalyzer).find_nearest_beat_to_expected
      1 = some 3 :=
  ⟨⟨by decide, by decide⟩,
   C1_nearest_beat_matching ⟨[q 0 1, q 1 2, q 1 1, q 3 2], q 120 1, 4, 44100, 0⟩ 1
     (by decide) (by decide),
   by decide⟩
